import Mathlib

/-!
Verification of the day-boundary scheduler and video-assembly pipeline of
`timelapse.py` (the picam repository).

The embedding models:
* filesystem paths as lists of characters, the filesystem as a list of paths;
* the glob pattern `{dir}/IMG_{date}*.jpg` built in `save_video` and
  `capture_photos`, with single-`*` glob semantics (the star does not cross a
  path separator);
* the `for run in run_list` loop of `save_video`, including the
  `success = (success or success is None) and proc.returncode == 0` fold, the
  "output already exists" skip branch, the YouTube upload call (whose
  `timeout=600` makes `subprocess.run` raise `TimeoutExpired`, an exception
  `save_video` does not catch: modelled by the `raised` flag, which aborts the
  remaining iterations and the deletion step), and the conditional deletion of
  the day's frames;
* the tick loop of `capture_photos`: the `ended_day` marker, the two
  `.time()`-projected window comparisons, the capture branch and the day-close
  branch (which invokes `save_video` only when the day's glob is nonempty).

External collaborators (ffmpeg, youtube-upload, the camera) are modelled by
per-invocation behaviours: an exit status, whether the encoder leaves its
output file on disk, and whether the upload completes or times out.
-/

set_option maxHeartbeats 1000000

namespace Picam

/-- A filesystem path, as its list of characters. -/
abbrev Path := List Char

/-- The literal fragment `/IMG_` of frame names in `timelapse.py`. -/
def imgTag : Path := ['/', 'I', 'M', 'G', '_']

/-- The literal fragment `/VID_` of video names in `timelapse.py`. -/
def vidTag : Path := ['/', 'V', 'I', 'D', '_']

/-- The literal extension `.jpg`. -/
def jpgExt : Path := ['.', 'j', 'p', 'g']

/-- The literal extension `.mp4`. -/
def mp4Ext : Path := ['.', 'm', 'p', '4']

/-- The literal tail `_TS.mp4` of the timestamp-overlay artifact. -/
def tsMp4Ext : Path := ['_', 'T', 'S', '.', 'm', 'p', '4']

/-- `{output_directory}/VID_{date}.mp4`, or `{output_directory}/VID_{date}_TS.mp4`
when `ts` is true: the two `out_path` entries of `run_list`. -/
def vidPath (dir d : Path) (ts : Bool) : Path :=
  dir ++ vidTag ++ d ++ (if ts then tsMp4Ext else mp4Ext)

/-- `{output_directory}/IMG_{date}{hms}.jpg`: the name of a captured frame. -/
def framePath (dir d hms : Path) : Path :=
  dir ++ imgTag ++ d ++ hms ++ jpgExt

/-- The fixed head of `input_path_pattern`, everything before the `*`. -/
def patPre (dir d : Path) : Path := dir ++ imgTag ++ d

/-- Semantics of the glob `{dir}/IMG_{date}*.jpg`: the fixed head, then any run
of characters containing no path separator, then `.jpg`. -/
def globMatch (dir d f : Path) : Bool :=
  (patPre dir d).isPrefixOf f && jpgExt.isSuffixOf f &&
    decide ((patPre dir d).length + jpgExt.length ≤ f.length) &&
    ((f.drop (patPre dir d).length).take
        (f.length - (patPre dir d).length - jpgExt.length)).all (fun c => c != '/')

/-- One entry of `run_list`: a declared output path and an optional upload
title (the `cmd` string is opaque to the claims and omitted). -/
structure Profile where
  out_path : Path
  upload_title : Option Path

/-- Outcome of one `youtube-upload` subprocess call: either the process
returned (with some exit status, which `save_video` ignores), or it exceeded
`timeout=600`, in which case `subprocess.run` raises `TimeoutExpired`. -/
inductive PubResult
  | completed (rc : Int)
  | timedOut

/-- The external world's response to one profile: the encoder's exit status,
whether the encoder leaves the output file on disk, and the behaviour of the
upload call should it be invoked. -/
structure ProfileBehavior where
  encRc : Int
  encCreates : Bool
  pub : PubResult

/-- Whether a publish call raises `TimeoutExpired`. -/
def isTimeout : PubResult → Bool
  | PubResult.timedOut => true
  | PubResult.completed _ => false

/-- State threaded through the `for run in run_list` loop of `save_video`:
the filesystem, the `success` variable (`none` = Python `None`), the list of
profiles reached by the loop, the encoder and upload invocations made so far,
and whether an uncaught `TimeoutExpired` has been raised. -/
structure LoopState where
  fs : List Path
  success : Option Bool
  processed : List Path
  encoded : List Path
  uploaded : List Path
  raised : Bool

/-- One iteration of the `for run in run_list` body of `save_video`:
if the output exists, log and set `success = False`; otherwise run the
encoder, fold `success = (success or success is None) and rc == 0`, and if an
upload title is present and the encoder exited 0, invoke the upload (which may
raise `TimeoutExpired`). -/
def stepProfile (s : LoopState) (p : Profile) (b : ProfileBehavior) : LoopState :=
  if p.out_path ∈ s.fs then
    { s with success := some false, processed := s.processed ++ [p.out_path] }
  else
    let doUpload := p.upload_title.isSome && decide (b.encRc = 0)
    { fs := if b.encCreates then p.out_path :: s.fs else s.fs,
      success := some (s.success.getD true && decide (b.encRc = 0)),
      processed := s.processed ++ [p.out_path],
      encoded := s.encoded ++ [p.out_path],
      uploaded := if doUpload then s.uploaded ++ [p.out_path] else s.uploaded,
      raised := doUpload && isTimeout b.pub }

/-- The loop over `run_list`, paired with each profile's external behaviour;
an uncaught exception aborts the remaining iterations. -/
def runProfiles : List (Profile × ProfileBehavior) → LoopState → LoopState
  | [], s => s
  | (p, b) :: rest, s =>
    let s' := stepProfile s p b
    if s'.raised then s' else runProfiles rest s'

/-- The two-entry `run_list` built by `save_video`: the plain video first with
no upload title, then the timestamped video, whose title is set exactly when a
YouTube playlist name is configured.  The title's text
(`vid_date.strftime of Y-m-d A`) is never inspected by the program, so the
date string stands in for it. -/
def runList (playlist : Option Path) (dir d : Path) : List Profile :=
  [ { out_path := vidPath dir d false, upload_title := none },
    { out_path := vidPath dir d true,
      upload_title := if playlist.isSome then some d else none } ]

/-- The observable result of one `save_video` invocation. -/
structure SVResult where
  fs : List Path
  success : Option Bool
  processed : List Path
  encoded : List Path
  uploaded : List Path
  deletedRun : Bool
  raised : Bool

/-- `all(os.path.isfile(f) for f in [run["out_path"] for run in run_list])`. -/
def outsExist (profiles : List Profile) (fs : List Path) : Bool :=
  profiles.all (fun p => decide (p.out_path ∈ fs))

/-- `save_video(vid_date, output_directory)`: run the two profiles in order,
then, if no exception escaped and `success` is truthy and both declared
outputs are on disk, delete every file matching the day's glob. -/
def save_video (playlist : Option Path) (d dir : Path)
    (b1 b2 : ProfileBehavior) (fs : List Path) : SVResult :=
  let profiles := runList playlist dir d
  let s := runProfiles (profiles.zip [b1, b2]) ⟨fs, none, [], [], [], false⟩
  let del := !s.raised && s.success.getD false && outsExist profiles s.fs
  { fs := if del then s.fs.filter (fun f => !globMatch dir d f) else s.fs,
    success := s.success, processed := s.processed, encoded := s.encoded,
    uploaded := s.uploaded, deletedRun := del, raised := s.raised }

/-- Seconds per day; instants are seconds in the local civil timezone. -/
def secPerDay : Int := 86400

/-- The 40-minute margin applied on both ends of the daylight window. -/
def marginSec : Int := 2400

/-- `datetime.time()`: the time-of-day component of an instant. -/
def timeOf (t : Int) : Int := t % secPerDay

/-- `datetime.date()`: the calendar-date component of an instant. -/
def dateOf (t : Int) : Int := t / secPerDay

/-- The four-way branch taken by one iteration of `capture_photos`. -/
inductive Branch | alreadyClosed | beforeWindow | closeDay | capture
deriving DecidableEq

/-- The branch decision of one tick, exactly as the `if/elif` chain of
`capture_photos` writes it: first `now.date() == ended_day`, then the two
`.time()`-projected comparisons against `sunrise - 40min` and
`sunset + 40min`. -/
def branchOf (marker : Option Int) (now sunrise sunset : Int) : Branch :=
  if some (dateOf now) = marker then Branch.alreadyClosed
  else if timeOf now < timeOf (sunrise - marginSec) then Branch.beforeWindow
  else if timeOf now > timeOf (sunset + marginSec) then Branch.closeDay
  else Branch.capture

/-- One tick's inputs: the current instant, the sunrise and sunset instants
returned by the suntime library for it, and the external behaviours the
pipeline would observe were it invoked on this tick. -/
structure TickInput where
  now : Int
  sunrise : Int
  sunset : Int
  b1 : ProfileBehavior
  b2 : ProfileBehavior

/-- Scheduler-owned state: the `ended_day` marker and the filesystem. -/
structure SchedState where
  marker : Option Int
  fs : List Path

/-- Run-wide configuration: playlist name, output directory, and the date and
time-of-day renderings used to build file names. -/
structure SchedConfig where
  playlist : Option Path
  dir : Path
  fmtD : Int → Path
  fmtT : Int → Path

/-- The observable outcome of one tick. -/
structure TickOut where
  state : SchedState
  branch : Branch
  now : Int
  pipelineRan : Bool
  encoded : List Path
  uploaded : List Path
  deleted : Bool
  captured : Option Path
  raised : Bool

/-- One iteration of the `while True` loop of `capture_photos`.  The day-close
branch sets `ended_day` first, then invokes `save_video` only when the day's
glob matches at least one file. -/
def tick (cfg : SchedConfig) (st : SchedState) (inp : TickInput) : TickOut :=
  match branchOf st.marker inp.now inp.sunrise inp.sunset with
  | Branch.alreadyClosed =>
    ⟨st, Branch.alreadyClosed, inp.now, false, [], [], false, none, false⟩
  | Branch.beforeWindow =>
    ⟨st, Branch.beforeWindow, inp.now, false, [], [], false, none, false⟩
  | Branch.closeDay =>
    let d := dateOf inp.now
    let ds := cfg.fmtD d
    if st.fs.any (fun f => globMatch cfg.dir ds f) then
      let r := save_video cfg.playlist ds cfg.dir inp.b1 inp.b2 st.fs
      ⟨⟨some d, r.fs⟩, Branch.closeDay, inp.now, true, r.encoded, r.uploaded,
        r.deletedRun, none, r.raised⟩
    else
      ⟨⟨some d, st.fs⟩, Branch.closeDay, inp.now, false, [], [], false, none, false⟩
  | Branch.capture =>
    let p := cfg.dir ++ imgTag ++ cfg.fmtD (dateOf inp.now) ++
      cfg.fmtT (timeOf inp.now) ++ jpgExt
    ⟨⟨st.marker, p :: st.fs⟩, Branch.capture, inp.now, false, [], [], false, some p, false⟩

/-- The tick loop over a list of tick inputs; an exception escaping
`save_video` terminates the loop (nothing in `capture_photos` catches
`TimeoutExpired`). -/
def runTicks (cfg : SchedConfig) : SchedState → List TickInput → List TickOut
  | _, [] => []
  | st, inp :: rest =>
    let o := tick cfg st inp
    o :: (if o.raised then [] else runTicks cfg o.state rest)

/-- How many executed ticks took the day-close branch for calendar date `d`. -/
def countClose (d : Int) (outs : List TickOut) : Nat :=
  (outs.filter (fun o => decide (o.branch = Branch.closeDay ∧ dateOf o.now = d))).length

/-- Modelled from the spec (the aggregation sentence of claim C4): the
individual result of one profile, false when skipped because its output
already existed, otherwise the encoder's success. -/
def profileResult (fs : List Path) (p : Profile) (b : ProfileBehavior) : Bool :=
  if p.out_path ∈ fs then false else decide (b.encRc = 0)

/-- Filesystem evolution across one profile, for stating C4's fold. -/
def stepFs (fs : List Path) (p : Profile) (b : ProfileBehavior) : List Path :=
  if p.out_path ∈ fs then fs else if b.encCreates then p.out_path :: fs else fs

/-- The sequence of individual profile results along a run. -/
def resultsOf : List (Profile × ProfileBehavior) → List Path → List Bool
  | [], _ => []
  | (p, b) :: rest, fs => profileResult fs p b :: resultsOf rest (stepFs fs p b)

/-- Modelled from the spec (claim C4): the left-to-right AND fold whose
initial value is the first profile's own result, not an artificial `true`. -/
def foldFirstInit : List Bool → Option Bool
  | [] => none
  | r :: rest => some (rest.foldl (fun a b => a && b) r)

/-- The first `run_list` entry: the plain video, no upload title. -/
def prof1 (dir d : Path) : Profile := ⟨vidPath dir d false, none⟩

/-- The second `run_list` entry: the timestamped video. -/
def prof2 (playlist : Option Path) (dir d : Path) : Profile :=
  ⟨vidPath dir d true, if playlist.isSome then some d else none⟩

/-- The loop state reached after processing both `run_list` entries. -/
def svLoop (playlist : Option Path) (d dir : Path)
    (b1 b2 : ProfileBehavior) (fs : List Path) : LoopState :=
  stepProfile (stepProfile ⟨fs, none, [], [], [], false⟩ (prof1 dir d) b1)
    (prof2 playlist dir d) b2

/-- The video artifacts never match the day's frame glob: the pattern head
continues with `IMG_` where the artifact continues with `VID_`. -/
theorem globMatch_vid (dir d : Path) (ts : Bool) :
    globMatch dir d (vidPath dir d ts) = false := by
  rw [Bool.eq_false_iff]
  intro h
  simp only [globMatch, Bool.and_eq_true, List.isPrefixOf_iff_prefix] at h
  obtain ⟨⟨⟨hpre, -⟩, -⟩, -⟩ := h
  simp only [patPre, vidPath, imgTag, vidTag, List.append_assoc, List.cons_append,
    List.nil_append, List.prefix_append_right_inj, List.cons_prefix_cons] at hpre
  exact absurd hpre.2.1 (by decide)

/-- A frame of a different (equal-width) date never matches the day's glob. -/
theorem globMatch_frame_ne (dir d d' hms : Path) (hlen : d'.length = d.length)
    (hne : d' ≠ d) : globMatch dir d (framePath dir d' hms) = false := by
  rw [Bool.eq_false_iff]
  intro h
  simp only [globMatch, Bool.and_eq_true, List.isPrefixOf_iff_prefix] at h
  obtain ⟨⟨⟨hpre, -⟩, -⟩, -⟩ := h
  simp only [patPre, framePath, List.append_assoc, List.prefix_append_right_inj] at hpre
  have htake : d = (d' ++ (hms ++ jpgExt)).take d.length :=
    List.prefix_iff_eq_take.mp hpre
  rw [List.take_left' hlen] at htake
  exact hne htake.symm

/-- The two declared artifacts of one day are distinct paths. -/
theorem vidPath_ts_ne (dir d : Path) : vidPath dir d true ≠ vidPath dir d false := by
  intro h
  simp only [vidPath, if_true, if_false] at h
  have h2 := List.append_right_inj (dir ++ vidTag ++ d) |>.mp h
  exact absurd h2 (by decide)

/-- Stepping one profile never removes a file from the filesystem. -/
theorem stepProfile_fs_mono (s : LoopState) (p : Profile) (b : ProfileBehavior)
    (f : Path) (hf : f ∈ s.fs) : f ∈ (stepProfile s p b).fs := by
  simp only [stepProfile]
  split_ifs <;> simp [hf]

/-- A profile with no upload title can never raise. -/
theorem stepProfile_raised_of_none (s : LoopState) (p : Profile) (b : ProfileBehavior)
    (hp : p.upload_title = none) (hs : s.raised = false) :
    (stepProfile s p b).raised = false := by
  simp only [stepProfile]
  split_ifs <;> simp [hp, hs]

/-- Once `success` is `False`, every later step keeps it `False`. -/
theorem stepProfile_success_false (s : LoopState) (p : Profile) (b : ProfileBehavior)
    (hs : s.success = some false) : (stepProfile s p b).success = some false := by
  simp only [stepProfile]
  split_ifs <;> simp [hs]

/-- Permanence of failure through the whole loop (claim C4's second half). -/
theorem runProfiles_success_false (l : List (Profile × ProfileBehavior))
    (s : LoopState) (hs : s.success = some false) :
    (runProfiles l s).success = some false := by
  induction l generalizing s with
  | nil => exact hs
  | cons pb rest ih =>
    obtain ⟨p, b⟩ := pb
    simp only [runProfiles]
    split_ifs
    · exact stepProfile_success_false s p b hs
    · exact ih _ (stepProfile_success_false s p b hs)

/-- The two-element loop, when the first step cannot raise, is just the two
steps in order. -/
theorem runProfiles_pair (p q : Profile) (a b : ProfileBehavior) (s : LoopState)
    (h : (stepProfile s p a).raised = false) :
    runProfiles [(p, a), (q, b)] s = stepProfile (stepProfile s p a) q b := by
  simp only [runProfiles, h, Bool.false_eq_true, if_false, ite_self]

/-- `save_video` characterized through the explicit two-step loop state. -/
theorem save_video_eq (playlist : Option Path) (d dir : Path)
    (b1 b2 : ProfileBehavior) (fs : List Path) :
    save_video playlist d dir b1 b2 fs =
      { fs := if !(svLoop playlist d dir b1 b2 fs).raised &&
              (svLoop playlist d dir b1 b2 fs).success.getD false &&
              outsExist (runList playlist dir d) (svLoop playlist d dir b1 b2 fs).fs
          then (svLoop playlist d dir b1 b2 fs).fs.filter (fun f => !globMatch dir d f)
          else (svLoop playlist d dir b1 b2 fs).fs,
        success := (svLoop playlist d dir b1 b2 fs).success,
        processed := (svLoop playlist d dir b1 b2 fs).processed,
        encoded := (svLoop playlist d dir b1 b2 fs).encoded,
        uploaded := (svLoop playlist d dir b1 b2 fs).uploaded,
        deletedRun := !(svLoop playlist d dir b1 b2 fs).raised &&
              (svLoop playlist d dir b1 b2 fs).success.getD false &&
              outsExist (runList playlist dir d) (svLoop playlist d dir b1 b2 fs).fs,
        raised := (svLoop playlist d dir b1 b2 fs).raised } := by
  have hz : (runList playlist dir d).zip [b1, b2] =
      [(prof1 dir d, b1), (prof2 playlist dir d, b2)] := by
    simp [runList, prof1, prof2]
  have h1 : (stepProfile ⟨fs, none, [], [], [], false⟩ (prof1 dir d) b1).raised = false :=
    stepProfile_raised_of_none _ _ _ rfl rfl
  simp only [save_video, hz, runProfiles_pair _ _ _ _ _ h1, svLoop]

/-- The loop records every profile it reaches, skipped or encoded. -/
theorem stepProfile_processed (s : LoopState) (p : Profile) (b : ProfileBehavior) :
    (stepProfile s p b).processed = s.processed ++ [p.out_path] := by
  simp only [stepProfile]
  split_ifs <;> rfl

/-- The filesystem after one step, in the spec-side form. -/
theorem stepProfile_fs_eq (s : LoopState) (p : Profile) (b : ProfileBehavior) :
    (stepProfile s p b).fs = stepFs s.fs p b := by
  simp only [stepProfile, stepFs]
  split_ifs <;> rfl

/-- A step whose publish call completes (or is never made) does not raise. -/
theorem stepProfile_raised_of_completed (s : LoopState) (p : Profile)
    (b : ProfileBehavior) (hs : s.raised = false) (hb : isTimeout b.pub = false) :
    (stepProfile s p b).raised = false := by
  simp only [stepProfile]
  split_ifs <;> simp [hs, hb]

/-- One step folds the profile's individual result into `success` by AND. -/
theorem stepProfile_success_eq (s : LoopState) (p : Profile) (b : ProfileBehavior)
    (a : Bool) (hs : s.success = some a) :
    (stepProfile s p b).success = some (a && profileResult s.fs p b) := by
  simp only [stepProfile, profileResult]
  split_ifs <;> simp [hs]

/-- The very first profile's result becomes the aggregate as-is. -/
theorem stepProfile_success_none (s : LoopState) (p : Profile) (b : ProfileBehavior)
    (hs : s.success = none) :
    (stepProfile s p b).success = some (profileResult s.fs p b) := by
  simp only [stepProfile, profileResult]
  split_ifs <;> simp [hs]

/-- A profile whose encoder exits non-zero leaves `success = False` whether it
ran or was skipped. -/
theorem stepProfile_success_of_rc (s : LoopState) (p : Profile) (b : ProfileBehavior)
    (hb : b.encRc ≠ 0) : (stepProfile s p b).success = some false := by
  simp only [stepProfile]
  split_ifs <;> simp [hb]

/-- A skipped profile (output already on disk) records failure. -/
theorem stepProfile_skip_success (s : LoopState) (p : Profile) (b : ProfileBehavior)
    (h : p.out_path ∈ s.fs) : (stepProfile s p b).success = some false := by
  simp [stepProfile, h]

/-- Nothing present before the two-profile loop is removed by it. -/
theorem svLoop_fs_mono (playlist : Option Path) (d dir : Path)
    (b1 b2 : ProfileBehavior) (fs : List Path) (f : Path) (hf : f ∈ fs) :
    f ∈ (svLoop playlist d dir b1 b2 fs).fs :=
  stepProfile_fs_mono _ _ _ _ (stepProfile_fs_mono _ _ _ _ hf)

/-- Claim C2: if either declared output already exists on disk before the run,
the aggregate ends `False`, so the deletion step cannot fire and every file
present before `save_video` is still present after it, whatever the other
profile's encoder or upload does. -/
theorem spec_C2 (playlist : Option Path) (d dir : Path) (b1 b2 : ProfileBehavior)
    (fs : List Path)
    (h : vidPath dir d false ∈ fs ∨ vidPath dir d true ∈ fs) :
    ∀ f ∈ fs, f ∈ (save_video playlist d dir b1 b2 fs).fs := by
  intro f hf
  have hsucc : (svLoop playlist d dir b1 b2 fs).success = some false := by
    rcases h with h1 | h2
    · have e1 : (stepProfile ⟨fs, none, [], [], [], false⟩ (prof1 dir d) b1).success
          = some false := by
        simp [stepProfile, prof1, h1]
      exact stepProfile_success_false _ _ _ e1
    · have hmem : (prof2 playlist dir d).out_path ∈
          (stepProfile ⟨fs, none, [], [], [], false⟩ (prof1 dir d) b1).fs :=
        stepProfile_fs_mono _ _ _ _ h2
      exact stepProfile_skip_success _ _ _ hmem
  rw [save_video_eq]
  simp only [hsucc, Option.getD_some, Bool.and_false, Bool.false_and, Bool.false_eq_true,
    if_false]
  exact svLoop_fs_mono playlist d dir b1 b2 fs f hf

/-- Witness for C2: a pre-existing plain artifact, one frame on disk, a
successful second encoder — the frame survives the run. -/
theorem spec_C2_w :
    framePath ['o'] ['2', '0'] ['1'] ∈
      (save_video none ['2', '0'] ['o'] ⟨0, true, PubResult.completed 0⟩
        ⟨0, true, PubResult.completed 0⟩
        [vidPath ['o'] ['2', '0'] false, framePath ['o'] ['2', '0'] ['1']]).fs :=
  spec_C2 none ['2', '0'] ['o'] ⟨0, true, PubResult.completed 0⟩
    ⟨0, true, PubResult.completed 0⟩ _ (Or.inl (by decide)) _ (by decide)

/-- Claim C6: when either profile's encoder exits non-zero, the aggregate ends
`False`, so no file present before the run is deleted; and the loop still
reaches both profiles in order (it never aborts on an encode failure — the
only abort, `TimeoutExpired`, can occur solely after a zero exit status). -/
theorem spec_C6 (playlist : Option Path) (d dir : Path) (b1 b2 : ProfileBehavior)
    (fs : List Path) (h : b1.encRc ≠ 0 ∨ b2.encRc ≠ 0) :
    (∀ f ∈ fs, f ∈ (save_video playlist d dir b1 b2 fs).fs) ∧
    (save_video playlist d dir b1 b2 fs).processed =
      [vidPath dir d false, vidPath dir d true] := by
  have hsucc : (svLoop playlist d dir b1 b2 fs).success = some false := by
    rcases h with h1 | h2
    · exact stepProfile_success_false _ _ _ (stepProfile_success_of_rc _ _ _ h1)
    · exact stepProfile_success_of_rc _ _ _ h2
  constructor
  · intro f hf
    rw [save_video_eq]
    simp only [hsucc, Option.getD_some, Bool.and_false, Bool.false_and,
      Bool.false_eq_true, if_false]
    exact svLoop_fs_mono playlist d dir b1 b2 fs f hf
  · rw [save_video_eq]
    show (svLoop playlist d dir b1 b2 fs).processed = _
    simp [svLoop, stepProfile_processed, prof1, prof2]

/-- Witness for C6: first encoder exits 1 — the frame survives and both
profiles were reached. -/
theorem spec_C6_w :
    framePath ['o'] ['2', '0'] ['1'] ∈
      (save_video none ['2', '0'] ['o'] ⟨1, false, PubResult.completed 0⟩
        ⟨0, true, PubResult.completed 0⟩ [framePath ['o'] ['2', '0'] ['1']]).fs ∧
    (save_video none ['2', '0'] ['o'] ⟨1, false, PubResult.completed 0⟩
        ⟨0, true, PubResult.completed 0⟩ [framePath ['o'] ['2', '0'] ['1']]).processed =
      [vidPath ['o'] ['2', '0'] false, vidPath ['o'] ['2', '0'] true] :=
  ⟨(spec_C6 none ['2', '0'] ['o'] ⟨1, false, PubResult.completed 0⟩
      ⟨0, true, PubResult.completed 0⟩ [framePath ['o'] ['2', '0'] ['1']]
      (Or.inl (by decide))).1 _ (by decide),
   (spec_C6 none ['2', '0'] ['o'] ⟨1, false, PubResult.completed 0⟩
      ⟨0, true, PubResult.completed 0⟩ [framePath ['o'] ['2', '0'] ['1']]
      (Or.inl (by decide))).2⟩

/-- The generalized AND-fold invariant of the `success` variable. -/
theorem runProfiles_success_fold (l : List (Profile × ProfileBehavior)) :
    ∀ (s : LoopState) (a : Bool), s.success = some a → s.raised = false →
    (∀ pb ∈ l, isTimeout pb.2.pub = false) →
    (runProfiles l s).success =
      some ((resultsOf l s.fs).foldl (fun x y => x && y) a) := by
  induction l with
  | nil => intro s a hs _ _; simp [runProfiles, resultsOf, hs]
  | cons pb rest ih =>
    obtain ⟨p, b⟩ := pb
    intro s a hs hr hnt
    have hr' : (stepProfile s p b).raised = false :=
      stepProfile_raised_of_completed s p b hr (hnt (p, b) (by simp))
    have hs' : (stepProfile s p b).success = some (a && profileResult s.fs p b) :=
      stepProfile_success_eq s p b a hs
    simp only [runProfiles, hr', Bool.false_eq_true, if_false]
    rw [ih _ _ hs' hr' (fun x hx => hnt x (by simp [hx]))]
    simp [resultsOf, stepProfile_fs_eq]

/-- Claim C4: the aggregate is the left-to-right AND fold seeded with the
first profile's own result (part one, for runs whose publish calls all
complete), and a `False` aggregate is permanent (part two, unconditionally). -/
theorem spec_C4 (l : List (Profile × ProfileBehavior)) (fs : List Path)
    (hnt : ∀ pb ∈ l, isTimeout pb.2.pub = false) :
    (runProfiles l ⟨fs, none, [], [], [], false⟩).success =
      foldFirstInit (resultsOf l fs) ∧
    (∀ (l' : List (Profile × ProfileBehavior)) (s : LoopState),
      s.success = some false → (runProfiles l' s).success = some false) := by
  refine ⟨?_, fun l' s hs => runProfiles_success_false l' s hs⟩
  cases l with
  | nil => rfl
  | cons pb rest =>
    obtain ⟨p, b⟩ := pb
    have hr' : (stepProfile ⟨fs, none, [], [], [], false⟩ p b).raised = false :=
      stepProfile_raised_of_completed _ p b rfl (hnt (p, b) (by simp))
    have hs' : (stepProfile ⟨fs, none, [], [], [], false⟩ p b).success =
        some (profileResult fs p b) :=
      stepProfile_success_none _ p b rfl
    simp only [runProfiles, hr', Bool.false_eq_true, if_false]
    rw [runProfiles_success_fold rest _ _ hs' hr' (fun x hx => hnt x (by simp [hx]))]
    simp [resultsOf, foldFirstInit, stepProfile_fs_eq]

/-- Witness for C4: a skip (pre-existing output) then a successful encode
still aggregates to `False`. -/
theorem spec_C4_w :
    (runProfiles
        [(⟨['v'], none⟩, ⟨0, true, PubResult.completed 0⟩),
         (⟨['w'], none⟩, ⟨0, true, PubResult.completed 0⟩)]
        ⟨[['v']], none, [], [], [], false⟩).success =
      foldFirstInit (resultsOf
        [(⟨['v'], none⟩, ⟨0, true, PubResult.completed 0⟩),
         (⟨['w'], none⟩, ⟨0, true, PubResult.completed 0⟩)] [['v']]) :=
  (spec_C4
    [(⟨['v'], none⟩, ⟨0, true, PubResult.completed 0⟩),
     (⟨['w'], none⟩, ⟨0, true, PubResult.completed 0⟩)] [['v']]
    (by intro pb hpb; fin_cases hpb <;> rfl)).1

/-- The fully successful scenario: absent outputs, both encoders exit 0 and
produce their files, and the upload (if any) completes. -/
theorem svLoop_scenario (playlist : Option Path) (d dir : Path)
    (b1 b2 : ProfileBehavior) (fs : List Path)
    (h10 : b1.encRc = 0) (h20 : b2.encRc = 0)
    (hc1 : b1.encCreates = true) (hc2 : b2.encCreates = true)
    (ht : isTimeout b2.pub = false)
    (n1 : vidPath dir d false ∉ fs) (n2 : vidPath dir d true ∉ fs) :
    svLoop playlist d dir b1 b2 fs =
      ⟨vidPath dir d true :: vidPath dir d false :: fs, some true,
        [vidPath dir d false, vidPath dir d true],
        [vidPath dir d false, vidPath dir d true],
        if playlist.isSome then [vidPath dir d true] else [], false⟩ := by
  have e1 : stepProfile ⟨fs, none, [], [], [], false⟩ (prof1 dir d) b1 =
      ⟨vidPath dir d false :: fs, some true, [vidPath dir d false],
        [vidPath dir d false], [], false⟩ := by
    simp [stepProfile, prof1, n1, h10, hc1]
  have n2' : vidPath dir d true ∉ vidPath dir d false :: fs := by
    intro hmem
    rcases List.mem_cons.mp hmem with he | hin
    · exact vidPath_ts_ne dir d he
    · exact n2 hin
  show stepProfile _ (prof2 playlist dir d) b2 = _
  rw [e1]
  simp [stepProfile, prof2, n2', h20, hc2, ht]

/-- Claim C1 (amended): frames are deleted exactly when no publish timeout
aborted the run, the aggregate is true, and both declared outputs are on disk
after the run; and in the clean scenario (no pre-existing outputs, both
encoders succeed and produce their files, no publish timeout) both artifacts
exist afterwards and every file matching the day's glob is gone. -/
theorem spec_C1 (playlist : Option Path) (d dir : Path) (b1 b2 : ProfileBehavior)
    (fs : List Path) :
    ((save_video playlist d dir b1 b2 fs).deletedRun = true ↔
      ((save_video playlist d dir b1 b2 fs).raised = false ∧
       (save_video playlist d dir b1 b2 fs).success.getD false = true ∧
       vidPath dir d false ∈ (save_video playlist d dir b1 b2 fs).fs ∧
       vidPath dir d true ∈ (save_video playlist d dir b1 b2 fs).fs)) ∧
    (b1.encRc = 0 → b2.encRc = 0 → b1.encCreates = true → b2.encCreates = true →
     isTimeout b2.pub = false →
     vidPath dir d false ∉ fs → vidPath dir d true ∉ fs →
     (save_video playlist d dir b1 b2 fs).deletedRun = true ∧
     vidPath dir d false ∈ (save_video playlist d dir b1 b2 fs).fs ∧
     vidPath dir d true ∈ (save_video playlist d dir b1 b2 fs).fs ∧
     (∀ f, globMatch dir d f = true → f ∉ (save_video playlist d dir b1 b2 fs).fs)) := by
  constructor
  · rw [save_video_eq]
    dsimp only
    constructor
    · intro hd
      have hparts := hd
      simp only [Bool.and_eq_true, Bool.not_eq_true'] at hparts
      obtain ⟨⟨hr, hsucc⟩, hout⟩ := hparts
      simp only [outsExist, runList, List.all_cons, List.all_nil, Bool.and_eq_true,
        decide_eq_true_eq, Bool.and_true] at hout
      obtain ⟨h1, h2⟩ := hout
      refine ⟨hr, hsucc, ?_, ?_⟩ <;> rw [if_pos hd]
      · exact List.mem_filter.mpr ⟨h1, by rw [globMatch_vid]; rfl⟩
      · exact List.mem_filter.mpr ⟨h2, by rw [globMatch_vid]; rfl⟩
    · rintro ⟨hr, hsucc, h1, h2⟩
      have h1' : vidPath dir d false ∈ (svLoop playlist d dir b1 b2 fs).fs := by
        revert h1; split_ifs with hc
        · exact fun h => (List.mem_filter.mp h).1
        · exact id
      have h2' : vidPath dir d true ∈ (svLoop playlist d dir b1 b2 fs).fs := by
        revert h2; split_ifs with hc
        · exact fun h => (List.mem_filter.mp h).1
        · exact id
      simp [outsExist, runList, hr, hsucc, h1', h2']
  · intro h10 h20 hc1 hc2 ht n1 n2
    rw [save_video_eq]
    dsimp only
    rw [svLoop_scenario playlist d dir b1 b2 fs h10 h20 hc1 hc2 ht n1 n2]
    have hout : outsExist (runList playlist dir d)
        (vidPath dir d true :: vidPath dir d false :: fs) = true := by
      simp [outsExist, runList]
    simp only [hout, Option.getD_some, Bool.not_false, Bool.and_true, Bool.true_and,
      if_true, Bool.and_self]
    refine ⟨trivial, ?_, ?_, ?_⟩
    · exact List.mem_filter.mpr ⟨by simp, by rw [globMatch_vid]; rfl⟩
    · exact List.mem_filter.mpr ⟨by simp, by rw [globMatch_vid]; rfl⟩
    · intro f hg hmem
      have := (List.mem_filter.mp hmem).2
      rw [hg] at this
      exact absurd this (by decide)

/-- Counterexample to C1 as stated: with a configured playlist, both encoders
succeeding, and the upload timing out, the aggregate is true and both outputs
exist, yet `TimeoutExpired` escapes before the deletion step — so deletion is
not equivalent to "aggregate true and outputs exist". -/
theorem spec_C1_cex :
    ¬ ((save_video (some ['P']) ['2', '0'] ['o'] ⟨0, true, PubResult.completed 0⟩
          ⟨0, true, PubResult.timedOut⟩ [framePath ['o'] ['2', '0'] ['1']]).deletedRun = true ↔
        ((save_video (some ['P']) ['2', '0'] ['o'] ⟨0, true, PubResult.completed 0⟩
          ⟨0, true, PubResult.timedOut⟩
          [framePath ['o'] ['2', '0'] ['1']]).success.getD false = true ∧
         vidPath ['o'] ['2', '0'] false ∈
          (save_video (some ['P']) ['2', '0'] ['o'] ⟨0, true, PubResult.completed 0⟩
            ⟨0, true, PubResult.timedOut⟩ [framePath ['o'] ['2', '0'] ['1']]).fs ∧
         vidPath ['o'] ['2', '0'] true ∈
          (save_video (some ['P']) ['2', '0'] ['o'] ⟨0, true, PubResult.completed 0⟩
            ⟨0, true, PubResult.timedOut⟩ [framePath ['o'] ['2', '0'] ['1']]).fs)) := by
  decide

/-- Witness for C1: clean day with a completing upload — deletion fires. -/
theorem spec_C1_w :
    (save_video (some ['P']) ['2', '0'] ['o'] ⟨0, true, PubResult.completed 0⟩
      ⟨0, true, PubResult.completed 0⟩ [framePath ['o'] ['2', '0'] ['1']]).deletedRun = true ∧
    framePath ['o'] ['2', '0'] ['1'] ∉
      (save_video (some ['P']) ['2', '0'] ['o'] ⟨0, true, PubResult.completed 0⟩
        ⟨0, true, PubResult.completed 0⟩ [framePath ['o'] ['2', '0'] ['1']]).fs := by
  have h := (spec_C1 (some ['P']) ['2', '0'] ['o'] ⟨0, true, PubResult.completed 0⟩
    ⟨0, true, PubResult.completed 0⟩ [framePath ['o'] ['2', '0'] ['1']]).2
    rfl rfl rfl rfl rfl (by decide) (by decide)
  exact ⟨h.1, h.2.2.2 _ (by decide)⟩

/-- Claim C5 (amended): a publish call that completes is fully swallowed —
its exit status influences nothing (the run's entire observable result is
unchanged under any completed status) and no exception escapes; a publish
timeout, by contrast, raises `TimeoutExpired`, which aborts `save_video`
before the deletion step ever runs. -/
theorem spec_C5 (playlist : Option Path) (d dir : Path) (e1 e2 : Int)
    (c1 c2 : Bool) (r1 r2 r1' r2' : Int) (fs : List Path) :
    save_video playlist d dir ⟨e1, c1, PubResult.completed r1⟩
        ⟨e2, c2, PubResult.completed r2⟩ fs =
      save_video playlist d dir ⟨e1, c1, PubResult.completed r1'⟩
        ⟨e2, c2, PubResult.completed r2'⟩ fs ∧
    (save_video playlist d dir ⟨e1, c1, PubResult.completed r1⟩
        ⟨e2, c2, PubResult.completed r2⟩ fs).raised = false ∧
    (∀ (b1 b2 : ProfileBehavior),
      (save_video playlist d dir b1 b2 fs).raised = true →
      (save_video playlist d dir b1 b2 fs).deletedRun = false) := by
  refine ⟨rfl, ?_, ?_⟩
  · rw [save_video_eq]
    exact stepProfile_raised_of_completed _ _ _
      (stepProfile_raised_of_completed _ _ _ rfl rfl) rfl
  · intro b1 b2 hr
    rw [save_video_eq] at hr ⊢
    dsimp only at hr ⊢
    rw [hr]
    rfl

/-- Counterexample to C5 as stated: the very same run deletes the day's
frames when the upload merely fails (exit status 5) but aborts without
deleting them when the upload times out — the timeout is not swallowed and
does change the frame-deletion outcome. -/
theorem spec_C5_cex :
    (save_video (some ['P']) ['2', '0'] ['o'] ⟨0, true, PubResult.completed 0⟩
      ⟨0, true, PubResult.timedOut⟩ [framePath ['o'] ['2', '0'] ['1']]).raised = true ∧
    (save_video (some ['P']) ['2', '0'] ['o'] ⟨0, true, PubResult.completed 0⟩
      ⟨0, true, PubResult.timedOut⟩
      [framePath ['o'] ['2', '0'] ['1']]).deletedRun = false ∧
    (save_video (some ['P']) ['2', '0'] ['o'] ⟨0, true, PubResult.completed 0⟩
      ⟨0, true, PubResult.completed 5⟩
      [framePath ['o'] ['2', '0'] ['1']]).deletedRun = true := by
  decide

/-- Witness for C5: a run whose uploads complete does not raise. -/
theorem spec_C5_w :
    (save_video (some ['P']) ['2', '0'] ['o'] ⟨0, true, PubResult.completed 0⟩
      ⟨0, true, PubResult.completed 7⟩ [framePath ['o'] ['2', '0'] ['1']]).raised = false :=
  (spec_C5 (some ['P']) ['2', '0'] ['o'] 0 0 true true 0 7 0 9
    [framePath ['o'] ['2', '0'] ['1']]).2.1

/-- Claim C10: when the deletion step runs it removes exactly the files
matching the day's glob — a pre-run file survives exactly when it does not
match — while both freshly declared artifacts and any equal-width other-day
frame survive. -/
theorem spec_C10 (playlist : Option Path) (d dir : Path) (b1 b2 : ProfileBehavior)
    (fs : List Path)
    (hdel : (save_video playlist d dir b1 b2 fs).deletedRun = true) :
    (∀ f ∈ fs, (f ∈ (save_video playlist d dir b1 b2 fs).fs ↔
        globMatch dir d f = false)) ∧
    vidPath dir d false ∈ (save_video playlist d dir b1 b2 fs).fs ∧
    vidPath dir d true ∈ (save_video playlist d dir b1 b2 fs).fs ∧
    (∀ d' hms, d'.length = d.length → d' ≠ d →
      framePath dir d' hms ∈ fs →
      framePath dir d' hms ∈ (save_video playlist d dir b1 b2 fs).fs) := by
  rw [save_video_eq] at hdel ⊢
  dsimp only at hdel ⊢
  have hout := hdel
  simp only [Bool.and_eq_true, Bool.not_eq_true'] at hout
  obtain ⟨⟨hr, hsucc⟩, houts⟩ := hout
  simp only [outsExist, runList, List.all_cons, List.all_nil, Bool.and_eq_true,
    decide_eq_true_eq, Bool.and_true] at houts
  obtain ⟨h1, h2⟩ := houts
  rw [if_pos hdel]
  refine ⟨?_, ?_, ?_, ?_⟩
  · intro f hf
    constructor
    · intro hmem
      have := (List.mem_filter.mp hmem).2
      simp only [Bool.not_eq_true'] at this
      exact this
    · intro hg
      exact List.mem_filter.mpr ⟨svLoop_fs_mono playlist d dir b1 b2 fs f hf,
        by rw [hg]; rfl⟩
  · exact List.mem_filter.mpr ⟨h1, by rw [globMatch_vid]; rfl⟩
  · exact List.mem_filter.mpr ⟨h2, by rw [globMatch_vid]; rfl⟩
  · intro d' hms hlen hne hmem
    exact List.mem_filter.mpr ⟨svLoop_fs_mono playlist d dir b1 b2 fs _ hmem,
      by rw [globMatch_frame_ne dir d d' hms hlen hne]; rfl⟩

/-- Witness for C10: a deleting run keeps the plain artifact and an
other-day frame while the day's frame is gone. -/
theorem spec_C10_w :
    vidPath ['o'] ['2', '0'] false ∈
      (save_video none ['2', '0'] ['o'] ⟨0, true, PubResult.completed 0⟩
        ⟨0, true, PubResult.completed 0⟩
        [framePath ['o'] ['2', '0'] ['1'], framePath ['o'] ['2', '1'] ['1']]).fs ∧
    framePath ['o'] ['2', '1'] ['1'] ∈
      (save_video none ['2', '0'] ['o'] ⟨0, true, PubResult.completed 0⟩
        ⟨0, true, PubResult.completed 0⟩
        [framePath ['o'] ['2', '0'] ['1'], framePath ['o'] ['2', '1'] ['1']]).fs := by
  have h := spec_C10 none ['2', '0'] ['o'] ⟨0, true, PubResult.completed 0⟩
    ⟨0, true, PubResult.completed 0⟩
    [framePath ['o'] ['2', '0'] ['1'], framePath ['o'] ['2', '1'] ['1']] (by decide)
  exact ⟨h.2.1, h.2.2.2 ['2', '1'] ['1'] (by decide) (by decide) (by decide)⟩

/-- A tick on a day already marked closed takes the first branch. -/
theorem branchOf_marker_eq (m : Option Int) (now sr ss : Int)
    (h : some (dateOf now) = m) : branchOf m now sr ss = Branch.alreadyClosed := by
  simp [branchOf, h]

/-- The branch a tick reports is the branch decision on its inputs. -/
theorem tick_branch (cfg : SchedConfig) (st : SchedState) (inp : TickInput) :
    (tick cfg st inp).branch = branchOf st.marker inp.now inp.sunrise inp.sunset := by
  cases hb : branchOf st.marker inp.now inp.sunrise inp.sunset <;>
    simp only [tick, hb] <;> first | rfl | (split_ifs <;> rfl)

/-- A tick reports the instant it ran at. -/
theorem tick_now (cfg : SchedConfig) (st : SchedState) (inp : TickInput) :
    (tick cfg st inp).now = inp.now := by
  cases hb : branchOf st.marker inp.now inp.sunrise inp.sunset <;>
    simp only [tick, hb] <;> first | rfl | (split_ifs <;> rfl)

/-- The marker after a tick: set to today by the day-close branch
(unconditionally, frames or not, pipeline outcome or not), untouched
otherwise. -/
theorem tick_marker (cfg : SchedConfig) (st : SchedState) (inp : TickInput) :
    (tick cfg st inp).state.marker =
      (if branchOf st.marker inp.now inp.sunrise inp.sunset = Branch.closeDay
       then some (dateOf inp.now) else st.marker) := by
  cases hb : branchOf st.marker inp.now inp.sunrise inp.sunset <;>
    simp only [tick, hb] <;> first | rfl | (split_ifs <;> rfl)

/-- The calendar-date projection is monotone in the instant. -/
theorem dateOf_mono {a b : Int} (h : a ≤ b) : dateOf a ≤ dateOf b :=
  Int.ediv_le_ediv (by decide) h

/-- Unfolding `countClose` over a trace head. -/
theorem countClose_cons (d : Int) (o : TickOut) (outs : List TickOut) :
    countClose d (o :: outs) =
      (if o.branch = Branch.closeDay ∧ dateOf o.now = d then 1 else 0) +
        countClose d outs := by
  by_cases h : o.branch = Branch.closeDay ∧ dateOf o.now = d
  · simp [countClose, List.filter_cons, h, Nat.add_comm]
  · simp [countClose, List.filter_cons, h]

/-- Unfolding `runTicks` over a trace head. -/
theorem runTicks_cons (cfg : SchedConfig) (st : SchedState) (inp : TickInput)
    (rest : List TickInput) :
    runTicks cfg st (inp :: rest) =
      tick cfg st inp ::
        (if (tick cfg st inp).raised then []
         else runTicks cfg (tick cfg st inp).state rest) := rfl

/-- Once the marker holds date `d` (or every upcoming tick is strictly past
`d`), no later tick of a chronological trace closes day `d` again. -/
theorem countClose_zero (cfg : SchedConfig) (d : Int) :
    ∀ (l : List TickInput) (st : SchedState),
    l.Pairwise (fun a b => a.now ≤ b.now) →
    (∀ x ∈ l, d ≤ dateOf x.now) →
    (st.marker = some d ∨ ∀ x ∈ l, d < dateOf x.now) →
    countClose d (runTicks cfg st l) = 0 := by
  intro l
  induction l with
  | nil => intro st _ _ _; rfl
  | cons inp rest ih =>
    intro st hsort hge hinv
    obtain ⟨hpair, hsort'⟩ := List.pairwise_cons.mp hsort
    have hnd : d ≤ dateOf inp.now := hge inp (by simp)
    rw [runTicks_cons, countClose_cons]
    have hhead : ¬((tick cfg st inp).branch = Branch.closeDay ∧
        dateOf (tick cfg st inp).now = d) := by
      rw [tick_branch, tick_now]
      rcases hinv with hm | hall
      · by_cases hdate : dateOf inp.now = d
        · rw [branchOf_marker_eq st.marker inp.now inp.sunrise inp.sunset
            (by rw [hdate, hm])]
          rintro ⟨hc, -⟩
          exact absurd hc (by decide)
        · rintro ⟨-, hc⟩
          exact hdate hc
      · rintro ⟨-, hc⟩
        exact absurd hc (Int.ne_of_gt (hall inp (by simp)))
    rw [if_neg hhead, Nat.zero_add]
    by_cases hraise : (tick cfg st inp).raised = true
    · rw [if_pos hraise]; rfl
    · rw [if_neg hraise]
      apply ih _ hsort' (fun y hy => hge y (by simp [hy]))
      by_cases hb : branchOf st.marker inp.now inp.sunrise inp.sunset = Branch.closeDay
      · right
        have hlt : d < dateOf inp.now := by
          rcases hinv with hm | hall
          · rcases Int.lt_or_le d (dateOf inp.now) with hlt | hle
            · exact hlt
            · have hdate : dateOf inp.now = d := Int.le_antisymm hle hnd
              rw [branchOf_marker_eq st.marker inp.now inp.sunrise inp.sunset
                (by rw [hdate, hm])] at hb
              exact absurd hb (by decide)
          · exact hall inp (by simp)
        intro y hy
        exact Int.lt_of_lt_of_le hlt (dateOf_mono (hpair y hy))
      · rw [tick_marker, if_neg hb]
        rcases hinv with hm | hall
        · exact Or.inl hm
        · exact Or.inr (fun y hy => hall y (by simp [hy]))

/-- On a chronological trace whose initial marker (if set) does not exceed
any upcoming date, each calendar date is closed at most once. -/
theorem countClose_le_one (cfg : SchedConfig) (d : Int) :
    ∀ (l : List TickInput) (st : SchedState),
    l.Pairwise (fun a b => a.now ≤ b.now) →
    (∀ e, st.marker = some e → ∀ x ∈ l, e ≤ dateOf x.now) →
    countClose d (runTicks cfg st l) ≤ 1 := by
  intro l
  induction l with
  | nil => intro st _ _; exact Nat.zero_le 1
  | cons inp rest ih =>
    intro st hsort hok
    obtain ⟨hpair, hsort'⟩ := List.pairwise_cons.mp hsort
    rw [runTicks_cons, countClose_cons]
    by_cases hraise : (tick cfg st inp).raised = true
    · rw [if_pos hraise]
      have : countClose d [] = 0 := rfl
      split_ifs <;> simp [this]
    · rw [if_neg hraise]
      by_cases hb : branchOf st.marker inp.now inp.sunrise inp.sunset = Branch.closeDay
      · by_cases hd : dateOf inp.now = d
        · have hz : countClose d (runTicks cfg (tick cfg st inp).state rest) = 0 := by
            apply countClose_zero cfg d rest _ hsort'
            · intro y hy
              rw [← hd]
              exact dateOf_mono (hpair y hy)
            · left
              rw [tick_marker, if_pos hb, hd]
          rw [hz]
          split_ifs <;> simp
        · have hhead : ¬((tick cfg st inp).branch = Branch.closeDay ∧
              dateOf (tick cfg st inp).now = d) := by
            rw [tick_now]
            rintro ⟨-, hc⟩
            exact hd hc
          rw [if_neg hhead, Nat.zero_add]
          apply ih _ hsort'
          intro e he y hy
          rw [tick_marker, if_pos hb] at he
          rw [← Option.some.inj he]
          exact dateOf_mono (hpair y hy)
      · have hhead : ¬((tick cfg st inp).branch = Branch.closeDay ∧
            dateOf (tick cfg st inp).now = d) := by
          rw [tick_branch]
          rintro ⟨hc, -⟩
          exact hb hc
        rw [if_neg hhead, Nat.zero_add]
        apply ih _ hsort'
        intro e he y hy
        rw [tick_marker, if_neg hb] at he
        exact hok e he y (by simp [hy])

/-- Claim C3: on any chronological trace started with no day closed, each
calendar date sees at most one day-close transition; the close branch sets
the marker to today unconditionally (zero frames and pipeline failures
included, since `ended_day` is assigned before the glob check); and a tick
whose date already equals the marker is a complete no-op. -/
theorem spec_C3 (cfg : SchedConfig) (inputs : List TickInput) (st : SchedState)
    (hsort : inputs.Pairwise (fun a b => a.now ≤ b.now))
    (hm : st.marker = none) :
    (∀ d, countClose d (runTicks cfg st inputs) ≤ 1) ∧
    (∀ (st' : SchedState) (inp : TickInput),
      branchOf st'.marker inp.now inp.sunrise inp.sunset = Branch.closeDay →
      (tick cfg st' inp).state.marker = some (dateOf inp.now)) ∧
    (∀ (st' : SchedState) (inp : TickInput),
      st'.marker = some (dateOf inp.now) →
      (tick cfg st' inp).state = st' ∧
      (tick cfg st' inp).branch = Branch.alreadyClosed ∧
      (tick cfg st' inp).pipelineRan = false ∧
      (tick cfg st' inp).captured = none) := by
  refine ⟨fun d => countClose_le_one cfg d inputs st hsort ?_, ?_, ?_⟩
  · intro e he
    rw [hm] at he
    exact absurd he (by simp)
  · intro st' inp hb
    rw [tick_marker, if_pos hb]
  · intro st' inp hmark
    have hb : branchOf st'.marker inp.now inp.sunrise inp.sunset =
        Branch.alreadyClosed :=
      branchOf_marker_eq _ _ _ _ hmark.symm
    refine ⟨?_, ?_, ?_, ?_⟩ <;> simp [tick, hb]

/-- Witness for C3: a two-tick trace past window close fires exactly once. -/
theorem spec_C3_w :
    countClose 0
      (runTicks ⟨none, ['o'], fun _ => ['D'], fun _ => ['T']⟩ ⟨none, []⟩
        [⟨70000, 21600, 64800, ⟨0, true, PubResult.completed 0⟩,
            ⟨0, true, PubResult.completed 0⟩⟩,
         ⟨71000, 21600, 64800, ⟨0, true, PubResult.completed 0⟩,
            ⟨0, true, PubResult.completed 0⟩⟩]) ≤ 1 :=
  (spec_C3 ⟨none, ['o'], fun _ => ['D'], fun _ => ['T']⟩
    [⟨70000, 21600, 64800, ⟨0, true, PubResult.completed 0⟩,
        ⟨0, true, PubResult.completed 0⟩⟩,
     ⟨71000, 21600, 64800, ⟨0, true, PubResult.completed 0⟩,
        ⟨0, true, PubResult.completed 0⟩⟩] ⟨none, []⟩
    (by decide) rfl).1 0

/-- Claim C7 (amended): with today not yet closed and the widened window
bounds falling on today's own calendar date, the capture branch is taken
exactly when `sunrise - M ≤ now ≤ sunset + M` — the upper bound is
inclusive, because the close comparison is strict (`>`). -/
theorem spec_C7 (marker : Option Int) (now sunrise sunset : Int)
    (hm : some (dateOf now) ≠ marker)
    (hr : dateOf (sunrise - marginSec) = dateOf now)
    (hs : dateOf (sunset + marginSec) = dateOf now) :
    branchOf marker now sunrise sunset = Branch.capture ↔
      (sunrise - marginSec ≤ now ∧ now ≤ sunset + marginSec) := by
  have key : (¬ timeOf now < timeOf (sunrise - marginSec) ∧
      ¬ timeOf now > timeOf (sunset + marginSec)) ↔
      (sunrise - marginSec ≤ now ∧ now ≤ sunset + marginSec) := by
    simp only [timeOf, dateOf, marginSec, secPerDay] at hr hs ⊢
    omega
  constructor
  · intro hc
    unfold branchOf at hc
    split_ifs at hc with h1 h2 h3
    exact key.mp ⟨h2, h3⟩
  · intro hin
    obtain ⟨hna, hnb⟩ := key.mpr hin
    unfold branchOf
    rw [if_neg hm, if_neg hna, if_neg hnb]

/-- Counterexample to C7 as stated: at the instant `now = sunset + M` exactly,
the code still captures (its close test is strictly greater-than), while the
claimed window `sunrise - M ≤ now < sunset + M` excludes that instant. -/
theorem spec_C7_cex :
    ¬ (branchOf none 67200 21600 64800 = Branch.capture ↔
        ((21600 : Int) - marginSec ≤ 67200 ∧ (67200 : Int) < 64800 + marginSec)) := by
  decide

/-- Witness for C7: mid-morning on an unclosed day is a capture tick. -/
theorem spec_C7_w :
    branchOf none 30000 21600 64800 = Branch.capture ↔
      ((21600 : Int) - marginSec ≤ 30000 ∧ (30000 : Int) ≤ 64800 + marginSec) :=
  spec_C7 none 30000 21600 64800 (by decide) (by decide) (by decide)

/-- Claim C8: a day-close tick whose glob matches no file only marks the day
closed: the filesystem is untouched and no encode, upload, deletion or
capture happens (the zero-frame guard lives in `capture_photos`, which then
never invokes `save_video`). -/
theorem spec_C8 (cfg : SchedConfig) (st : SchedState) (inp : TickInput)
    (hb : branchOf st.marker inp.now inp.sunrise inp.sunset = Branch.closeDay)
    (hglob : ∀ f ∈ st.fs, globMatch cfg.dir (cfg.fmtD (dateOf inp.now)) f = false) :
    (tick cfg st inp).state.fs = st.fs ∧
    (tick cfg st inp).state.marker = some (dateOf inp.now) ∧
    (tick cfg st inp).pipelineRan = false ∧
    (tick cfg st inp).encoded = [] ∧
    (tick cfg st inp).uploaded = [] ∧
    (tick cfg st inp).deleted = false ∧
    (tick cfg st inp).captured = none ∧
    (tick cfg st inp).raised = false := by
  have hany : st.fs.any (fun f => globMatch cfg.dir (cfg.fmtD (dateOf inp.now)) f)
      = false := by
    rw [List.any_eq_false]
    intro f hf
    simp [hglob f hf]
  simp [tick, hb, hany]

/-- Witness for C8: an empty filesystem at window close — the tick only sets
the marker. -/
theorem spec_C8_w :
    (tick ⟨none, ['o'], fun _ => ['D'], fun _ => ['T']⟩ ⟨none, []⟩
      ⟨70000, 21600, 64800, ⟨0, true, PubResult.completed 0⟩,
        ⟨0, true, PubResult.completed 0⟩⟩).state.fs = [] ∧
    (tick ⟨none, ['o'], fun _ => ['D'], fun _ => ['T']⟩ ⟨none, []⟩
      ⟨70000, 21600, 64800, ⟨0, true, PubResult.completed 0⟩,
        ⟨0, true, PubResult.completed 0⟩⟩).state.marker = some (dateOf 70000) ∧
    (tick ⟨none, ['o'], fun _ => ['D'], fun _ => ['T']⟩ ⟨none, []⟩
      ⟨70000, 21600, 64800, ⟨0, true, PubResult.completed 0⟩,
        ⟨0, true, PubResult.completed 0⟩⟩).pipelineRan = false := by
  have h := spec_C8 ⟨none, ['o'], fun _ => ['D'], fun _ => ['T']⟩ ⟨none, []⟩
    ⟨70000, 21600, 64800, ⟨0, true, PubResult.completed 0⟩,
      ⟨0, true, PubResult.completed 0⟩⟩ (by decide) (by simp)
  exact ⟨h.1, h.2.1, h.2.2.1⟩

/-- Claim C9: the tick's branch decision is invariant under any change of the
inputs that preserves the time-of-day components of `now`, `sunrise - M` and
`sunset + M` together with the outcome of the marker comparison — the
calendar dates of the compared instants are discarded; consequently, with a
widened window end past midnight (`sunset + M` on the next calendar day), a
late-evening tick takes the close-day branch even though the true instant
`sunset + M` is still ahead of it. -/
theorem spec_C9 :
    (∀ (m m' : Option Int) (now now' sr sr' ss ss' : Int),
      timeOf now = timeOf now' →
      timeOf (sr - marginSec) = timeOf (sr' - marginSec) →
      timeOf (ss + marginSec) = timeOf (ss' + marginSec) →
      ((some (dateOf now) = m) ↔ (some (dateOf now') = m')) →
      branchOf m now sr ss = branchOf m' now' sr' ss') ∧
    (branchOf none 86000 21600 85000 = Branch.closeDay ∧
      (86000 : Int) < 85000 + marginSec) := by
  constructor
  · intro m m' now now' sr sr' ss ss' h1 h2 h3 h4
    unfold branchOf
    rw [h1, h2, h3]
    exact if_congr h4 rfl rfl
  · exact ⟨by decide, by decide⟩

/-- Witness for C9: shifting every instant by a whole day (which preserves
all three time-of-day components and the marker test) preserves the branch. -/
theorem spec_C9_w :
    branchOf none 86000 21600 85000 =
      branchOf none (86000 + 86400) (21600 + 86400) (85000 + 86400) :=
  spec_C9.1 none none 86000 (86000 + 86400) 21600 (21600 + 86400) 85000
    (85000 + 86400) (by decide) (by decide) (by decide) (by decide)

end Picam
